import Mathlib

/-!
Shallow embedding of `dfwatcher` (src/dfwatcher/main.go): a terminal
dashboard that watches a directory, keeps a bounded history of filesystem
change events, refreshes a `git diff` snapshot on events and on a periodic
tick, and annotates the diff text for display.

Strings are modelled with Lean `String`; the Go byte-level operations
(`strings.HasPrefix`, `strings.Split`, `strings.TrimSpace`, slicing) are
re-implemented over `String.data` character lists, which agrees with the Go
code on the ASCII inputs the claims are about.  External effects (the
`git diff` / `git status` invocations, the wall clock) are passed in
explicitly as message payloads, so the transition function is a pure Lean
function.
-/

namespace DFWatcher

/-- Character-list core of Go `strings.HasPrefix`. -/
def startsWithChars : List Char → List Char → Bool
  | [], _ => true
  | _ :: _, [] => false
  | a :: as, b :: bs => a == b && startsWithChars as bs

/-- Go `strings.HasPrefix(s, pre)`. -/
def hasPref (s pre : String) : Bool :=
  startsWithChars pre.data s.data

/-- Go `len(s)` (byte length; equal to character count on the ASCII inputs
the claims concern). -/
def goLen (s : String) : Nat := s.data.length

/-- Go slice `s[n:]`. -/
def dropChars (n : Nat) (s : String) : String := String.mk (s.data.drop n)

/-- Go `strings.TrimPrefix(s, pre)`. -/
def goTrimPref (s pre : String) : String :=
  if hasPref s pre then dropChars (goLen pre) s else s

/-- Approximation of Go `unicode.IsSpace` restricted to the ASCII
whitespace characters. -/
def isSpaceChar (c : Char) : Bool :=
  c == ' ' || c == '\t' || c == '\n' || c == '\r'

/-- Go `strings.TrimSpace`. -/
def goTrimSpace (s : String) : String :=
  String.mk (((s.data.dropWhile isSpaceChar).reverse.dropWhile isSpaceChar).reverse)

/-- Accumulator-style worker for `goSplitLines`. -/
def splitLinesAux : List Char → List Char → List String
  | acc, [] => [String.mk acc.reverse]
  | acc, c :: cs =>
    if c == '\n' then String.mk acc.reverse :: splitLinesAux [] cs
    else splitLinesAux (c :: acc) cs

/-- Go `strings.Split(s, "\n")`: e.g. `"a\nb\n"` splits to
`["a", "b", ""]` and `""` splits to `[""]`. -/
def goSplitLines (s : String) : List String := splitLinesAux [] s.data

/-- `fileEvent` from main.go (the `time.Time` field is modelled as a
natural-number timestamp supplied by the caller, as `time.Now()` is). -/
structure FileEvent where
  time : Nat
  event : String
  file : String
deriving DecidableEq, Repr

/-- Classification of an annotated display line, following the five
branches of `updateDiffView`: `diff --git` header, old/new file marker
(`---` / `+++`), hunk header (`@@`), added (`+`), removed (`-`), context. -/
inductive Kind
  | fileHeader
  | oldNewHeader
  | hunkHeader
  | added
  | removed
  | context
deriving DecidableEq, Repr

/-- One annotated display line.  `num` records the value of the running
`lineNum` counter at the moment the line was processed; `updateDiffView`
renders that number only on `context` lines (see `shownNum`). -/
structure AnnLine where
  kind : Kind
  text : String
  num : Nat
deriving DecidableEq, Repr

/-- The loop body of `updateDiffView` over the diff's lines, threading the
`lineNum` counter (initialised to 1 by the caller).  Branch order and
conditions mirror the Go `if`/`else if` chain; added/removed lines store
the text with the marker trimmed (`strings.TrimPrefix`), and the context
branch increments the counter only when the line is nonempty and does not
start with `"@@"` (the second conjunct is unreachable there but kept
verbatim). -/
def annotateLines : Nat → List String → List AnnLine
  | _, [] => []
  | n, line :: rest =>
    if hasPref line "diff --git" then
      ⟨Kind.fileHeader, line, n⟩ :: annotateLines n rest
    else if hasPref line "---" || hasPref line "+++" then
      ⟨Kind.oldNewHeader, line, n⟩ :: annotateLines n rest
    else if hasPref line "@@" then
      ⟨Kind.hunkHeader, line, n⟩ :: annotateLines n rest
    else if hasPref line "+" && !hasPref line "+++" then
      ⟨Kind.added, goTrimPref line "+", n⟩ :: annotateLines (n + 1) rest
    else if hasPref line "-" && !hasPref line "---" then
      ⟨Kind.removed, goTrimPref line "-", n⟩ :: annotateLines n rest
    else
      ⟨Kind.context, line, n⟩ ::
        annotateLines (if line != "" && !hasPref line "@@" then n + 1 else n) rest

/-- The display line number attached to an annotated line: only context
lines are rendered with their counter value (`lineNumberStyle.Render` of
`lineNum` happens in the final `else` branch only). -/
def shownNum (a : AnnLine) : Option Nat :=
  match a.kind with
  | Kind.context => some a.num
  | _ => none

/-- Result of the external `git` invocations performed by `getDiff`:
the outcome of `git diff --color=never` (which can fail) and the output of
`git status --porcelain` (whose error is ignored in the Go code). -/
inductive DiffOutcome
  | ok (out : String)
  | fail (msg : String)
deriving DecidableEq, Repr

structure GitResult where
  diffOut : DiffOutcome
  statusOut : String
deriving DecidableEq, Repr

/-- The scan inside `getDiff`: first status line longer than three bytes,
trimmed after its first three bytes; empty string when none qualifies. -/
def firstHint : List String → String
  | [] => ""
  | l :: ls => if goLen l > 3 then goTrimSpace (dropChars 3 l) else firstHint ls

/-- `getDiff` from main.go, with the external process results passed in.
Returns `(diff text, lastModified hint)`; on `git diff` failure it returns
the diagnostic string and an empty hint. -/
def getDiff (r : GitResult) : String × String :=
  match r.diffOut with
  | DiffOutcome.fail e => ("Error getting diff: " ++ e, "")
  | DiffOutcome.ok out =>
    let lastModified :=
      if goLen r.statusOut > 0 then firstHint (goSplitLines r.statusOut) else ""
    (out, lastModified)

/-- A raw fsnotify notification: the absolute path plus the relevant bits
of the `Op` bitmask (`Create`, `Write`, `Remove`; other bits such as
`Chmod`/`Rename` make all three false). -/
structure RawEvent where
  name : String
  create : Bool
  write : Bool
  remove : Bool
deriving DecidableEq, Repr

/-- Strip a leading character sequence, returning the remainder when the
sequence is a prefix. -/
def stripPref : List Char → List Char → Option (List Char)
  | [], l => some l
  | _ :: _, [] => none
  | a :: as, b :: bs => if a == b then stripPref as bs else none

/-- Modelled `filepath.Rel(dir, name)` for the case the watcher meets:
`name` lying under `dir`, where Rel returns the path with `dir ++ "/"`
stripped; other names are left unchanged. -/
def relTo (dir name : String) : String :=
  match stripPref (dir ++ "/").data name.data with
  | some rest => String.mk rest
  | none => name

/-- The event-classification body of the watcher goroutine in
`watchDirectory`: drop notifications without a Write/Create/Remove bit,
relativise the path, drop paths under `.git/`, and classify the kind with
Create taking priority over Remove, defaulting to `"modified"`.
`now` stands for the `time.Now()` call. -/
def processRawEvent (dir : String) (now : Nat) (e : RawEvent) : Option FileEvent :=
  if e.write || e.create || e.remove then
    let relPath := relTo dir e.name
    if hasPref relPath ".git/" then none
    else
      let eventType :=
        if e.create then "created" else if e.remove then "deleted" else "modified"
      some ⟨now, eventType, relPath⟩
  else none

/-- The viewport content produced by `updateDiffView`: the header line
(`"Recent Diffs"`, with the lastModified hint appended when present), the
fixed `--- watchDir` / `+++ /dev/null` preamble, and the annotated diff
lines.  Styling (lipgloss colours) is presentation-only and not modelled. -/
structure DiffView where
  header : String
  preamble : String
  body : List AnnLine
deriving DecidableEq, Repr

/-- The `model` struct from main.go.  The bubbles viewport and table are
external display components; of them only the viewport's content (set
exclusively by `updateDiffView`) and the window geometry are modelled.
The events mutex guards a single writer and is not needed in the
sequential embedding. -/
structure Model where
  watchDir : String
  diff : String
  lastModified : String
  events : List FileEvent
  view : DiffView
  width : Nat
  height : Nat
  ready : Bool
deriving DecidableEq, Repr

/-- `updateDiffView` from main.go as a function of the model. -/
def updateDiffView (m : Model) : DiffView :=
  { header :=
      if m.lastModified != "" then "Recent Diffs - " ++ m.lastModified
      else "Recent Diffs"
    preamble := "--- " ++ m.watchDir ++ "\n+++ /dev/null\n"
    body := annotateLines 1 (goSplitLines m.diff) }

/-- The history append in the `fileEventMsg` branch of `Update`: prepend
the new event, then truncate to 20 entries when over capacity. -/
def appendEvent (e : FileEvent) (l : List FileEvent) : List FileEvent :=
  let l' := e :: l
  if l'.length > 20 then l'.take 20 else l'

/-- The messages `Update` consumes.  `fileEvent` and `tick` carry the
`GitResult` their handler's `getDiff` call will observe, making the
external invocation's outcome an explicit input. -/
inductive Msg
  | key (s : String)
  | windowSize (w h : Nat)
  | fileEvent (ev : FileEvent) (provider : GitResult)
  | diffUpdate (diff lastModified : String)
  | tick (provider : GitResult)
  | err (e : String)
deriving DecidableEq, Repr

/-- The commands `Update` returns: `tea.Quit`, the closure returning a
`diffUpdateMsg`, and the re-armed `tick()`. -/
inductive Cmd
  | quit
  | emitDiffUpdate (diff lastModified : String)
  | tickCmd
deriving DecidableEq, Repr

/-- `Update` from main.go as a pure transition function
`(Model, Msg) → (Model, commands)`.  The trailing
`viewport.Update` / `table.Update` delegation only affects display
component state (scroll position, focus), never the fields modelled here,
and is omitted. -/
def update (m : Model) (msg : Msg) : Model × List Cmd :=
  match msg with
  | Msg.key s =>
    if s == "q" || s == "ctrl+c" then (m, [Cmd.quit]) else (m, [])
  | Msg.windowSize w h =>
    ({ m with width := w, height := h, ready := true }, [])
  | Msg.fileEvent ev provider =>
    let m' := { m with events := appendEvent ev m.events }
    ( m', [Cmd.emitDiffUpdate (getDiff provider).1 (getDiff provider).2] )
  | Msg.diffUpdate d lm =>
    let m' := { m with diff := d, lastModified := lm }
    ({ m' with view := updateDiffView m' }, [])
  | Msg.tick provider =>
    if (getDiff provider).1 != m.diff then
      let m' := { m with diff := (getDiff provider).1,
                         lastModified := (getDiff provider).2 }
      ({ m' with view := updateDiffView m' }, [Cmd.tickCmd])
    else (m, [Cmd.tickCmd])
  | Msg.err e =>
    let m' := { m with diff := "Error: " ++ e }
    ({ m' with view := updateDiffView m' }, [])

/-- Process a message sequence in arrival order, keeping the final model. -/
def runSeq (m : Model) (msgs : List Msg) : Model :=
  msgs.foldl (fun m msg => (update m msg).1) m

/-- Process a message sequence in arrival order, also collecting every
command emitted along the way. -/
def runTrace (m : Model) (msgs : List Msg) : Model × List Cmd :=
  msgs.foldl
    (fun (p : Model × List Cmd) msg =>
      ((update p.1 msg).1, p.2 ++ (update p.1 msg).2))
    (m, [])

/-- Number of `emitDiffUpdate` (DiffUpdated) commands in a command list. -/
def countDiffUpdates (cs : List Cmd) : Nat :=
  cs.countP (fun c =>
    match c with
    | Cmd.emitDiffUpdate _ _ => true
    | _ => false)

/-- History after a sequence of appends starting from the empty history
the program boots with (`events: []fileEvent{}`). -/
def histAfter (es : List FileEvent) : List FileEvent :=
  es.foldl (fun l e => appendEvent e l) []

/-- A concrete model used to instantiate universally quantified theorems:
the state after startup in directory `/w` once the stored diff is `"D1"`. -/
def demoModel : Model :=
  { watchDir := "/w", diff := "D1", lastModified := "", events := [],
    view := ⟨"Recent Diffs", "--- /w\n+++ /dev/null\n", []⟩,
    width := 80, height := 24, ready := true }

/-- A variant of `demoModel` whose stored diff differs from `"D1"`. -/
def demoModelStale : Model := { demoModel with diff := "D0" }

def demoEvent : FileEvent := ⟨0, "modified", "a"⟩

/-- A provider result returning diff text `"D1"` and empty status. -/
def demoProvider : GitResult := ⟨DiffOutcome.ok "D1", ""⟩

/-- A provider result returning diff text `"D1"` and a nonempty status
listing whose hint is `"zzz.txt"`. -/
def demoProviderHint : GitResult := ⟨DiffOutcome.ok "D1", " M zzz.txt\n"⟩

/- ### Helper lemmas -/

lemma startsWith_head {c : Char} {cs l : List Char}
    (h : startsWithChars (c :: cs) l = true) : ∃ t, l = c :: t := by
  cases l with
  | nil => simp [startsWithChars] at h
  | cons b bs =>
    simp only [startsWithChars, Bool.and_eq_true, beq_iff_eq] at h
    exact ⟨bs, by rw [h.1]⟩

lemma startsWith_ne_head {c d : Char} {cs ds l : List Char} (hcd : d ≠ c)
    (h : startsWithChars (c :: cs) l = true) :
    startsWithChars (d :: ds) l = false := by
  obtain ⟨t, rfl⟩ := startsWith_head h
  simp [startsWithChars, hcd]

/-- If `s` starts with a character other than the first character of `q`,
then `s` does not start with `q`. -/
lemma hasPref_false_of_head {s p q : String} {c d : Char} {cs ds : List Char}
    (hp : p.data = c :: cs) (hq : q.data = d :: ds) (hcd : d ≠ c)
    (h : hasPref s p = true) : hasPref s q = false := by
  unfold hasPref at *
  rw [hp] at h
  rw [hq]
  exact startsWith_ne_head hcd h

/-- A `diff --git` line leaves the counter unchanged. -/
lemma fileHeader_step (n : Nat) (line : String) (rest : List String)
    (hd : hasPref line "diff --git" = true) :
    annotateLines n (line :: rest)
      = ⟨Kind.fileHeader, line, n⟩ :: annotateLines n rest := by
  simp [annotateLines, hd]

/-- A removal-marked line (leading `-`, not `---`) is classified removed
and leaves the counter unchanged. -/
lemma removed_step (n : Nat) (line : String) (rest : List String)
    (hm : hasPref line "-" = true) (h3 : hasPref line "---" = false) :
    annotateLines n (line :: rest)
      = ⟨Kind.removed, goTrimPref line "-", n⟩ :: annotateLines n rest := by
  have hd : hasPref line "diff --git" = false :=
    hasPref_false_of_head rfl rfl (by decide) hm
  have hp3 : hasPref line "+++" = false :=
    hasPref_false_of_head rfl rfl (by decide) hm
  have hat : hasPref line "@@" = false :=
    hasPref_false_of_head rfl rfl (by decide) hm
  have hp : hasPref line "+" = false :=
    hasPref_false_of_head rfl rfl (by decide) hm
  simp [annotateLines, hd, h3, hp3, hat, hp, hm]

/-- An addition-marked line (leading `+`, not `+++`) is classified added
and advances the counter by one. -/
lemma added_step (n : Nat) (line : String) (rest : List String)
    (hp : hasPref line "+" = true) (hp3 : hasPref line "+++" = false) :
    annotateLines n (line :: rest)
      = ⟨Kind.added, goTrimPref line "+", n⟩ :: annotateLines (n + 1) rest := by
  have hd : hasPref line "diff --git" = false :=
    hasPref_false_of_head rfl rfl (by decide) hp
  have hm3 : hasPref line "---" = false :=
    hasPref_false_of_head rfl rfl (by decide) hp
  have hat : hasPref line "@@" = false :=
    hasPref_false_of_head rfl rfl (by decide) hp
  simp [annotateLines, hd, hm3, hp3, hat, hp]

/-- A line matching none of the marker prefixes is classified context and
advances the counter exactly when it is nonempty. -/
lemma context_step (n : Nat) (line : String) (rest : List String)
    (hd : hasPref line "diff --git" = false) (h3 : hasPref line "---" = false)
    (hp3 : hasPref line "+++" = false) (hat : hasPref line "@@" = false)
    (hp : hasPref line "+" = false) (hm : hasPref line "-" = false) :
    annotateLines n (line :: rest)
      = ⟨Kind.context, line, n⟩
          :: annotateLines (if line != "" then n + 1 else n) rest := by
  simp [annotateLines, hd, h3, hp3, hat, hp, hm]

/-- `appendEvent` is truncation of the extended list to 20 entries. -/
lemma appendEvent_eq_take (e : FileEvent) (l : List FileEvent) :
    appendEvent e l = (e :: l).take 20 := by
  show (if (e :: l).length > 20 then (e :: l).take 20 else (e :: l)) = (e :: l).take 20
  split
  · rfl
  · next h => rw [List.take_of_length_le (by omega)]

lemma take_append_take {α : Type} (xs ys : List α) (n : Nat) :
    (xs ++ ys.take n).take n = (xs ++ ys).take n := by
  rw [List.take_append_eq_append_take, List.take_append_eq_append_take,
    List.take_take]
  have hmin : min (n - xs.length) n = n - xs.length := by omega
  rw [hmin]

lemma foldl_append_take (es : List FileEvent) :
    ∀ acc : List FileEvent, acc.length ≤ 20 →
      es.foldl (fun l e => appendEvent e l) acc = (es.reverse ++ acc).take 20 := by
  induction es with
  | nil =>
    intro acc h
    simp [List.take_of_length_le h]
  | cons e es ih =>
    intro acc h
    rw [List.foldl_cons, appendEvent_eq_take,
      ih ((e :: acc).take 20) (by simp), List.reverse_cons, List.append_assoc,
      List.singleton_append, take_append_take]

/-- The history after any append sequence from the empty start is the
20-element truncation of the reversed sequence. -/
lemma histAfter_eq_take (es : List FileEvent) :
    histAfter es = es.reverse.take 20 := by
  have h := foldl_append_take es [] (by simp)
  simpa [histAfter] using h

/-- A tick whose fetched diff equals the stored diff changes nothing and
only re-arms the timer. -/
lemma tick_noop (m : Model) (p : GitResult) (h : (getDiff p).1 = m.diff) :
    update m (Msg.tick p) = (m, [Cmd.tickCmd]) := by
  simp [update, h]

/-- A tick whose fetched diff differs from the stored diff installs the
fetched diff and hint and re-renders. -/
lemma tick_change (m : Model) (p : GitResult) (h : (getDiff p).1 ≠ m.diff) :
    (update m (Msg.tick p)).1.diff = (getDiff p).1
      ∧ (update m (Msg.tick p)).1.lastModified = (getDiff p).2 := by
  simp [update, bne_iff_ne, h]

/-- A file event always emits a `diffUpdateMsg` carrying the fetched
result, without comparing it to the stored diff. -/
lemma fileEvent_emits (m : Model) (ev : FileEvent) (p : GitResult) :
    (update m (Msg.fileEvent ev p)).2
      = [Cmd.emitDiffUpdate (getDiff p).1 (getDiff p).2] := by
  simp [update]

lemma firstHint_none : ∀ ls : List String, (∀ l ∈ ls, goLen l ≤ 3) →
    firstHint ls = "" := by
  intro ls
  induction ls with
  | nil => intro _; rfl
  | cons a as ih =>
    intro h
    have ha : goLen a ≤ 3 := h a (by simp)
    have hlt : ¬ goLen a > 3 := by omega
    simp only [firstHint, if_neg hlt]
    exact ih (fun l hl => h l (by simp [hl]))

lemma firstHint_scan (pre : List String) (line : String) (post : List String)
    (hpre : ∀ l ∈ pre, goLen l ≤ 3) (hline : goLen line > 3) :
    firstHint (pre ++ line :: post) = goTrimSpace (dropChars 3 line) := by
  induction pre with
  | nil => simp [firstHint, hline]
  | cons a as ih =>
    have ha : goLen a ≤ 3 := hpre a (by simp)
    have hlt : ¬ goLen a > 3 := by omega
    simp only [List.cons_append, firstHint, if_neg hlt]
    exact ih (fun l hl => hpre l (by simp [hl]))

lemma stripPref_append : ∀ p r : List Char, stripPref p (p ++ r) = some r := by
  intro p r
  induction p with
  | nil => rfl
  | cons a as ih => simp [stripPref, ih]

/-- Rel of a path lying directly under the watch root strips the root. -/
lemma relTo_under (dir rest : String) : relTo dir (dir ++ "/" ++ rest) = rest := by
  unfold relTo
  have hdata : (dir ++ "/" ++ rest).data = (dir ++ "/").data ++ rest.data := by
    cases dir ++ "/" with
    | mk d => cases rest with
      | mk r => rfl
  rw [hdata, stripPref_append]

/- ### Claim theorems -/

/-- Claim C1, counterexample.  The claim says every diff-refresh trigger —
ChangeEvent-triggered as well as timer-tick-triggered — compares the
fetched text to the stored diff and produces a DiffUpdated only when it
differs.  In the code only the tick handler compares: the `fileEventMsg`
handler emits a `diffUpdateMsg` unconditionally.  Here the stored diff is
`"D1"`, the provider returns the identical `"D1"`, and a ChangeEvent
trigger still emits a DiffUpdated; two consecutive such refreshes emit
two DiffUpdated messages, not one. -/
theorem c1_counterexample :
    (getDiff demoProvider).1 = demoModel.diff
    ∧ (update demoModel (Msg.fileEvent demoEvent demoProvider)).2
        = [Cmd.emitDiffUpdate "D1" ""]
    ∧ countDiffUpdates (runTrace demoModel
        [Msg.fileEvent demoEvent demoProvider, Msg.diffUpdate "D1" "",
         Msg.fileEvent demoEvent demoProvider]).2 = 2
    ∧ countDiffUpdates (runTrace demoModel
        [Msg.fileEvent demoEvent demoProvider, Msg.diffUpdate "D1" "",
         Msg.fileEvent demoEvent demoProvider]).2 ≠ 1 := by
  decide

/-- Claim C1, amended: only timer-tick-triggered refreshes compare the
fetched text to the stored diff — an equal result changes nothing (so two
consecutive ticks returning identical text yield exactly one diff update,
on the first tick at most), while a ChangeEvent-triggered refresh emits a
DiffUpdated message unconditionally, without comparing. -/
theorem c1_amended :
    (∀ (m : Model) (p : GitResult), (getDiff p).1 = m.diff →
        update m (Msg.tick p) = (m, [Cmd.tickCmd]))
    ∧ (∀ (m : Model) (p : GitResult), (getDiff p).1 ≠ m.diff →
        (update m (Msg.tick p)).1.diff = (getDiff p).1
          ∧ update (update m (Msg.tick p)).1 (Msg.tick p)
              = ((update m (Msg.tick p)).1, [Cmd.tickCmd]))
    ∧ (∀ (m : Model) (ev : FileEvent) (p : GitResult),
        (update m (Msg.fileEvent ev p)).2
          = [Cmd.emitDiffUpdate (getDiff p).1 (getDiff p).2]) := by
  refine ⟨tick_noop, fun m p h => ?_, fileEvent_emits⟩
  have h1 := (tick_change m p h).1
  exact ⟨h1, tick_noop _ _ h1.symm⟩

/-- Claim C1 (amended) witness: instantiation at the demo model with a
provider returning `"D1"` — suppressed on an equal tick, installed on a
differing tick and suppressed on its repeat, always emitted on a
ChangeEvent refresh. -/
theorem c1_amended_witness :
    update demoModel (Msg.tick demoProvider) = (demoModel, [Cmd.tickCmd])
    ∧ ((update demoModelStale (Msg.tick demoProvider)).1.diff
          = (getDiff demoProvider).1
        ∧ update (update demoModelStale (Msg.tick demoProvider)).1
            (Msg.tick demoProvider)
            = ((update demoModelStale (Msg.tick demoProvider)).1,
               [Cmd.tickCmd]))
    ∧ (update demoModel (Msg.fileEvent demoEvent demoProvider)).2
        = [Cmd.emitDiffUpdate (getDiff demoProvider).1
            (getDiff demoProvider).2] :=
  ⟨c1_amended.1 demoModel demoProvider (by decide),
   c1_amended.2.1 demoModelStale demoProvider (by decide),
   c1_amended.2.2 demoModel demoEvent demoProvider⟩

/-- Claim C2: the transition function is deterministic — the next model is
a function of the current model and the message alone (external invocation
results travel inside the message), so identical ordered message sequences
from identical models yield identical resulting models. -/
theorem c2_deterministic (m₁ m₂ : Model) (l₁ l₂ : List Msg)
    (hm : m₁ = m₂) (hl : l₁ = l₂) : runSeq m₁ l₁ = runSeq m₂ l₂ := by
  subst hm
  subst hl
  rfl

/-- Claim C2 witness: replaying one concrete sequence twice from the demo
model yields the same model. -/
theorem c2_deterministic_witness :
    runSeq demoModel [Msg.fileEvent demoEvent demoProvider, Msg.tick demoProvider]
      = runSeq demoModel
          [Msg.fileEvent demoEvent demoProvider, Msg.tick demoProvider] :=
  c2_deterministic demoModel demoModel _ _ rfl rfl

/-- Claim C3: history appends insert at the head and evict at the tail at
capacity 20 — after any k appends from the empty start the history is the
min(k, 20) most recent events, most-recent-first; the bound is preserved
by every append; the `fileEventMsg` handler performs exactly this append;
and the three-event scenario yields
`[Deleted(b), Modified(a), Created(a)]`. -/
theorem c3_history_bounded :
    (∀ es : List FileEvent, histAfter es = es.reverse.take 20)
    ∧ (∀ es : List FileEvent, (histAfter es).length = min es.length 20)
    ∧ (∀ (e : FileEvent) (l : List FileEvent), l.length ≤ 20 →
        (appendEvent e l).length ≤ 20)
    ∧ (∀ (m : Model) (ev : FileEvent) (p : GitResult),
        (update m (Msg.fileEvent ev p)).1.events = appendEvent ev m.events)
    ∧ histAfter [⟨0, "created", "a"⟩, ⟨1, "modified", "a"⟩, ⟨2, "deleted", "b"⟩]
        = [⟨2, "deleted", "b"⟩, ⟨1, "modified", "a"⟩, ⟨0, "created", "a"⟩] := by
  refine ⟨histAfter_eq_take, fun es => ?_, fun e l h => ?_, fun m ev p => ?_, by decide⟩
  · rw [histAfter_eq_take]
    simp [Nat.min_comm]
  · rw [appendEvent_eq_take]
    simp
  · simp [update]

/-- Claim C3 witness: the capacity bound applied to a singleton history. -/
theorem c3_history_bounded_witness :
    (appendEvent demoEvent [demoEvent]).length ≤ 20 :=
  c3_history_bounded.2.2.1 demoEvent [demoEvent] (by decide)

/-- Claim C4, counterexample.  The claim says the line counter is reset at
every file-header line, so a two-file diff's second block restarts at 1.
In the code `lineNum` is initialised once before the loop and no branch
ever resets it: in this two-file diff the second block's first context
line is numbered 2, not 1. -/
theorem c4_counterexample :
    annotateLines 1 ["diff --git a/f b/f", "x", "diff --git a/g b/g", "y"]
      = [⟨Kind.fileHeader, "diff --git a/f b/f", 1⟩, ⟨Kind.context, "x", 1⟩,
         ⟨Kind.fileHeader, "diff --git a/g b/g", 2⟩, ⟨Kind.context, "y", 2⟩]
    ∧ annotateLines 1 ["diff --git a/f b/f", "x", "diff --git a/g b/g", "y"]
        ≠ [⟨Kind.fileHeader, "diff --git a/f b/f", 1⟩, ⟨Kind.context, "x", 1⟩,
           ⟨Kind.fileHeader, "diff --git a/g b/g", 2⟩, ⟨Kind.context, "y", 1⟩] := by
  decide

/-- Claim C4, amended: display line numbers are 1-based (the annotator
starts its counter at 1 for every rendered diff), but the counter is never
reset — a file-header line passes it through unchanged, so a two-file
diff's second block continues numbering where the first block left off
instead of restarting at 1. -/
theorem c4_amended :
    (∀ (n : Nat) (line : String) (rest : List String),
        hasPref line "diff --git" = true →
        annotateLines n (line :: rest)
          = ⟨Kind.fileHeader, line, n⟩ :: annotateLines n rest)
    ∧ (∀ m : Model, (updateDiffView m).body = annotateLines 1 (goSplitLines m.diff))
    ∧ annotateLines 1 ["a", "diff --git a/g b/g", "b"]
        = [⟨Kind.context, "a", 1⟩, ⟨Kind.fileHeader, "diff --git a/g b/g", 2⟩,
           ⟨Kind.context, "b", 2⟩] :=
  ⟨fileHeader_step, fun _ => rfl, by decide⟩

/-- Claim C4 (amended) witness: a concrete file-header line passes the
counter value 7 through unchanged. -/
theorem c4_amended_witness :
    annotateLines 7 ["diff --git a/f b/f"]
      = [⟨Kind.fileHeader, "diff --git a/f b/f", 7⟩] := by
  have h := c4_amended.1 7 "diff --git a/f b/f" [] (by decide)
  simpa using h

/-- Claim C5: removal-marked lines are rendered without a line number and
never advance the line counter, while addition-marked lines advance it; in
the scenario input the hunk header is passed through, removed `foo` shows
no number and consumes none, added `foo` consumes counter value 1 and
added `bar` consumes 2 (the `num` field records the counter at the moment
the line is processed; the trailing empty element comes from splitting the
final newline). -/
theorem c5_removed_added_numbering :
    (∀ (n : Nat) (line : String) (rest : List String),
        hasPref line "-" = true → hasPref line "---" = false →
        annotateLines n (line :: rest)
            = ⟨Kind.removed, goTrimPref line "-", n⟩ :: annotateLines n rest
          ∧ shownNum ⟨Kind.removed, goTrimPref line "-", n⟩ = none)
    ∧ (∀ (n : Nat) (line : String) (rest : List String),
        hasPref line "+" = true → hasPref line "+++" = false →
        annotateLines n (line :: rest)
          = ⟨Kind.added, goTrimPref line "+", n⟩ :: annotateLines (n + 1) rest)
    ∧ annotateLines 1 (goSplitLines "@@ -1,1 +1,2 @@\n-foo\n+foo\n+bar\n")
        = [⟨Kind.hunkHeader, "@@ -1,1 +1,2 @@", 1⟩, ⟨Kind.removed, "foo", 1⟩,
           ⟨Kind.added, "foo", 1⟩, ⟨Kind.added, "bar", 2⟩,
           ⟨Kind.context, "", 3⟩]
    ∧ shownNum ⟨Kind.removed, "foo", 1⟩ = none := by
  refine ⟨fun n line rest hm h3 => ⟨removed_step n line rest hm h3, rfl⟩,
    added_step, by decide, rfl⟩

/-- Claim C5 witness: the removal and addition steps applied to the
concrete lines `-old` and `+new` at counter value 1. -/
theorem c5_removed_added_numbering_witness :
    (annotateLines 1 ["-old"] = [⟨Kind.removed, goTrimPref "-old" "-", 1⟩]
      ∧ shownNum ⟨Kind.removed, goTrimPref "-old" "-", 1⟩ = none)
    ∧ annotateLines 1 ["+new"]
        = [⟨Kind.added, goTrimPref "+new" "+", 1⟩] := by
  refine ⟨⟨?_, (c5_removed_added_numbering.1 1 "-old" [] (by decide) (by decide)).2⟩, ?_⟩
  · have h := (c5_removed_added_numbering.1 1 "-old" [] (by decide) (by decide)).1
    simpa using h
  · have h := c5_removed_added_numbering.2.1 1 "+new" [] (by decide) (by decide)
    simpa using h

/-- Claim C6, counterexample.  The claim says every line outside the four
marked classes is classified context and increments the line counter; in
the code the increment is guarded by `line != ""`, so an empty context
line does not advance the counter — after an empty line, the next context
line is still numbered 1, where the claim would require 2. -/
theorem c6_counterexample :
    annotateLines 1 ["", "x"]
      = [⟨Kind.context, "", 1⟩, ⟨Kind.context, "x", 1⟩]
    ∧ annotateLines 1 ["", "x"]
        ≠ [⟨Kind.context, "", 1⟩, ⟨Kind.context, "x", 2⟩] := by
  decide

/-- Claim C6, amended: every input line that is not a file-header,
old/new-file marker, hunk-header, addition-marked or removal-marked line
is classified as context, and it increments the line counter exactly when
it is nonempty — empty context lines leave the counter unchanged. -/
theorem c6_amended (n : Nat) (line : String) (rest : List String)
    (hd : hasPref line "diff --git" = false) (h3 : hasPref line "---" = false)
    (hp3 : hasPref line "+++" = false) (hat : hasPref line "@@" = false)
    (hp : hasPref line "+" = false) (hm : hasPref line "-" = false) :
    annotateLines n (line :: rest)
      = ⟨Kind.context, line, n⟩
          :: annotateLines (if line != "" then n + 1 else n) rest :=
  context_step n line rest hd h3 hp3 hat hp hm

/-- Claim C6 (amended) witness: a nonempty unmarked line is context and
advances the counter; an empty one is context and does not. -/
theorem c6_amended_witness :
    annotateLines 1 ["x", ""]
      = [⟨Kind.context, "x", 1⟩, ⟨Kind.context, "", 2⟩]
    ∧ annotateLines 5 [""] = [⟨Kind.context, "", 5⟩] := by
  constructor
  · have h := c6_amended 1 "x" [""] (by decide) (by decide) (by decide)
      (by decide) (by decide) (by decide)
    simpa using h
  · have h := c6_amended 5 "" [] (by decide) (by decide) (by decide)
      (by decide) (by decide) (by decide)
    simpa using h

/-- Claim C7: for a raw notification on a path under the watch root, the
observer emits nothing when no create/write/remove bit is set, never emits
an event whose relative path lies under `.git/`, and otherwise emits a
ChangeEvent carrying the root-relative path with kind `created` for
create notifications, `deleted` for remove, and `modified` for write —
so every emitted kind is one of the three. -/
theorem c7_observer_events :
    ∀ (dir rest : String) (now : Nat) (e : RawEvent),
      e.name = dir ++ "/" ++ rest →
      ((e.write || e.create || e.remove) = false →
          processRawEvent dir now e = none)
      ∧ (hasPref rest ".git/" = true → processRawEvent dir now e = none)
      ∧ (hasPref rest ".git/" = false →
          (e.create = true →
              processRawEvent dir now e = some ⟨now, "created", rest⟩)
          ∧ (e.create = false → e.remove = true →
              processRawEvent dir now e = some ⟨now, "deleted", rest⟩)
          ∧ (e.create = false → e.remove = false → e.write = true →
              processRawEvent dir now e = some ⟨now, "modified", rest⟩)) := by
  intro dir rest now e hname
  refine ⟨fun hops => ?_, fun hgit => ?_, fun hgit => ⟨fun hc => ?_, fun hc hr => ?_, fun hc hr hw => ?_⟩⟩
  · simp [processRawEvent, hops]
  · simp only [processRawEvent, hname, relTo_under, hgit]
    split
    · rfl
    · rfl
  · cases hw : e.write <;> cases hr : e.remove <;>
      simp [processRawEvent, hname, relTo_under, hgit, hc, hr, hw]
  · simp [processRawEvent, hname, relTo_under, hgit, hc, hr]
  · simp [processRawEvent, hname, relTo_under, hgit, hc, hr, hw]

/-- Claim C7 witness: a create notification under the root is emitted as
`created` with the relative path, and a write inside `.git/` is dropped. -/
theorem c7_observer_events_witness :
    processRawEvent "/w" 5 ⟨"/w/a.txt", true, false, false⟩
      = some ⟨5, "created", "a.txt"⟩
    ∧ processRawEvent "/w" 5 ⟨"/w/.git/config", false, true, false⟩ = none :=
  ⟨((c7_observer_events "/w" "a.txt" 5 ⟨"/w/a.txt", true, false, false⟩
      (by decide)).2.2 (by decide)).1 rfl,
   (c7_observer_events "/w" ".git/config" 5 ⟨"/w/.git/config", false, true, false⟩
      (by decide)).2.1 (by decide)⟩

/-- Claim C8: when the external diff invocation fails, `getDiff` returns
the literal diagnostic `"Error getting diff: "` followed by the error text
as the diff content (with an empty hint); the tick handler always re-arms
the timer, so monitoring continues and the refresh is retried on the next
trigger; and when the diagnostic differs from the stored diff it is
installed as the displayed diff content. -/
theorem c8_provider_failure :
    (∀ e st : String,
        getDiff ⟨DiffOutcome.fail e, st⟩ = ("Error getting diff: " ++ e, ""))
    ∧ (∀ (m : Model) (p : GitResult), (update m (Msg.tick p)).2 = [Cmd.tickCmd])
    ∧ (∀ (m : Model) (e st : String), "Error getting diff: " ++ e ≠ m.diff →
        (update m (Msg.tick ⟨DiffOutcome.fail e, st⟩)).1.diff
          = "Error getting diff: " ++ e) := by
  refine ⟨fun e st => rfl, fun m p => ?_, fun m e st h => ?_⟩
  · simp only [update]
    split
    · rfl
    · rfl
  · exact (tick_change m ⟨DiffOutcome.fail e, st⟩ h).1

/-- Claim C8 witness: a failing provider with error text `boom` on a model
whose stored diff is `"D1"` — diagnostic returned, timer re-armed, and the
diagnostic installed as the diff content. -/
theorem c8_provider_failure_witness :
    getDiff ⟨DiffOutcome.fail "boom", ""⟩ = ("Error getting diff: boom", "")
    ∧ (update demoModel (Msg.tick ⟨DiffOutcome.fail "boom", ""⟩)).2
        = [Cmd.tickCmd]
    ∧ (update demoModel (Msg.tick ⟨DiffOutcome.fail "boom", ""⟩)).1.diff
        = "Error getting diff: " ++ "boom" :=
  ⟨c8_provider_failure.1 "boom" "",
   c8_provider_failure.2.1 demoModel ⟨DiffOutcome.fail "boom", ""⟩,
   c8_provider_failure.2.2 demoModel "boom" "" (by decide)⟩

/-- Claim C9: the last-changed-path hint selected by `getDiff` is the
whitespace-trimmed text after the first three characters of the first
status line longer than three characters; the hint is empty when the diff
invocation fails, when the status output is empty, and when no status line
is longer than three characters. -/
theorem c9_getDiff_hint :
    (∀ e st : String, (getDiff ⟨DiffOutcome.fail e, st⟩).2 = "")
    ∧ (∀ out : String, (getDiff ⟨DiffOutcome.ok out, ""⟩).2 = "")
    ∧ (∀ (out st : String) (pre : List String) (line : String)
        (post : List String),
        goLen st > 0 → goSplitLines st = pre ++ line :: post →
        (∀ l ∈ pre, goLen l ≤ 3) → goLen line > 3 →
        (getDiff ⟨DiffOutcome.ok out, st⟩).2 = goTrimSpace (dropChars 3 line))
    ∧ (∀ out st : String, (∀ l ∈ goSplitLines st, goLen l ≤ 3) →
        (getDiff ⟨DiffOutcome.ok out, st⟩).2 = "") := by
  refine ⟨fun e st => rfl, fun out => rfl,
    fun out st pre line post hpos hsplit hpre hline => ?_,
    fun out st hall => ?_⟩
  · simp only [getDiff, if_pos hpos, hsplit]
    exact firstHint_scan pre line post hpre hline
  · simp only [getDiff]
    split
    · exact firstHint_none _ hall
    · rfl

/-- Claim C9 witness: status output `" M foo.txt\n"` yields the hint
`"foo.txt"`, obtained by trimming the first status line after its first
three characters. -/
theorem c9_getDiff_hint_witness :
    (getDiff ⟨DiffOutcome.ok "D", " M foo.txt\n"⟩).2
      = goTrimSpace (dropChars 3 " M foo.txt")
    ∧ goTrimSpace (dropChars 3 " M foo.txt") = "foo.txt" :=
  ⟨c9_getDiff_hint.2.2.1 "D" " M foo.txt\n" [] " M foo.txt" [""]
      (by decide) (by decide) (by decide) (by decide),
   by decide⟩

/-- Claim C10: a timer tick whose fetched diff text equals the stored diff
leaves the model — its diff, lastModified hint, and the derived viewport
content included — completely unchanged and only re-arms the timer, even
when the fetched status hint differs from the stored one. -/
theorem c10_tick_frame (m : Model) (p : GitResult)
    (h : (getDiff p).1 = m.diff) :
    update m (Msg.tick p) = (m, [Cmd.tickCmd]) :=
  tick_noop m p h

/-- Claim C10 witness: a tick whose provider returns the stored diff text
`"D1"` but a changed status hint (`"zzz.txt"` instead of the stored empty
hint) leaves the demo model untouched. -/
theorem c10_tick_frame_witness :
    (getDiff demoProviderHint).2 ≠ demoModel.lastModified
    ∧ update demoModel (Msg.tick demoProviderHint) = (demoModel, [Cmd.tickCmd]) :=
  ⟨by decide, c10_tick_frame demoModel demoProviderHint (by decide)⟩

end DFWatcher
